import Mathlib

/-!
Shallow embedding of the ott streaming-dashboard server (Express + Drizzle ORM
over PostgreSQL).  The definitions below are translated from
`src/server/routes.ts`, `src/server/services/flussonic.ts` and the Drizzle
schema (`src/unnamed/part_005`).  Database tables are lists of rows; the
serial primary-key sequences are explicit `next…Id` counters.  HTTP handlers
become pure functions from a database state (plus the request data and the
outcome of any external vendor call) to a response and a new database state.
-/

namespace OTT

/-! ## Vendor API data (src/server/services/flussonic.ts) -/

/-- Normalized per-stream stats, the `stats` field of `FlussonicStream`
(`src/server/services/flussonic.ts` lines 33-42). -/
structure FlussonicStats where
  alive : Bool
  status : String
  bytes_in : Nat
  bytes_out : Nat
  input_bitrate : Nat
  online_clients : Nat
  last_access_at : Nat
  last_dts : Nat
deriving DecidableEq, Repr

/-- Normalized vendor stream as produced by `FlussonicService.getStreams`. -/
structure FlussonicStream where
  name : String
  stats : FlussonicStats
  template : Option String
  staticFlag : Bool
  nomedia : Bool
deriving DecidableEq, Repr

/-- Raw per-stream stats as they arrive from the vendor: every field may be
absent (the service accesses them through `stream.stats?.field`). -/
structure RawStats where
  alive : Option Bool
  status : Option String
  bytes_in : Option Nat
  bytes_out : Option Nat
  input_bitrate : Option Nat
  online_clients : Option Nat
  last_access_at : Option Nat
  last_dts : Option Nat
deriving DecidableEq, Repr

/-- Raw vendor stream object; the `stats` object itself may be missing. -/
structure RawStream where
  name : String
  stats : Option RawStats
  template : Option String
  staticFlag : Option Bool
  nomedia : Option Bool
deriving DecidableEq, Repr

/-- JavaScript `x || d` for an optionally-present boolean
(`stream.stats?.alive || false`): absent or falsy gives the default. -/
def jsOrBool (v : Option Bool) (d : Bool) : Bool :=
  match v with
  | none => d
  | some b => b || d

/-- JavaScript `x || d` for an optionally-present number: absent, or present
but `0` (falsy), gives the default. -/
def jsOrNat (v : Option Nat) (d : Nat) : Nat :=
  match v with
  | none => d
  | some n => if n = 0 then d else n

/-- JavaScript `x || d` for an optionally-present string: absent, or present
but empty (falsy), gives the default. -/
def jsOrString (v : Option String) (d : String) : String :=
  match v with
  | none => d
  | some s => if s = "" then d else s

/-- The per-stream mapping inside `FlussonicService.getStreams`
(`src/server/services/flussonic.ts` lines 99-119): every optional field is
defaulted with `||`.  `nowDts` stands for `Math.floor(Date.now() / 1000)`. -/
def normalizeStream (nowDts : Nat) (s : RawStream) : FlussonicStream :=
  { name := s.name
    stats :=
      { alive := jsOrBool (s.stats.bind RawStats.alive) false
        status := jsOrString (s.stats.bind RawStats.status) "unknown"
        bytes_in := jsOrNat (s.stats.bind RawStats.bytes_in) 0
        bytes_out := jsOrNat (s.stats.bind RawStats.bytes_out) 0
        input_bitrate := jsOrNat (s.stats.bind RawStats.input_bitrate) 0
        online_clients := jsOrNat (s.stats.bind RawStats.online_clients) 0
        last_access_at := jsOrNat (s.stats.bind RawStats.last_access_at) 0
        last_dts := jsOrNat (s.stats.bind RawStats.last_dts) nowDts }
    template := s.template
    staticFlag := jsOrBool s.staticFlag false
    nomedia := jsOrBool s.nomedia false }

/-- Shape of the body `makeAuthenticatedRequest` hands back to `getStreams`:
the response may be empty (`!response`), may lack a `streams` array, or may
carry a list of raw stream objects. -/
inductive VendorBody where
  | empty
  | noStreamsField
  | streamList (l : List RawStream)
deriving DecidableEq, Repr

/-- `FlussonicService.getStreams` (`src/server/services/flussonic.ts` lines
67-131).  The `resp` argument is the outcome of `makeAuthenticatedRequest`:
`Except.error` when the transport fails or the status is non-2xx (the service
rethrows), `Except.ok` with the parsed body otherwise. -/
def getStreamsModel (nowDts : Nat) (resp : Except String VendorBody) :
    Except String (List FlussonicStream) :=
  match resp with
  | .error e => .error e
  | .ok .empty => .ok []
  | .ok .noStreamsField => .ok []
  | .ok (.streamList l) => .ok (l.map (normalizeStream nowDts))

/-! ## Database rows (Drizzle schema, src/unnamed/part_005) -/

/-- Row of the `users` table. -/
structure UserRow where
  id : Nat
  username : String
  password : String
  isAdmin : Bool
deriving DecidableEq, Repr

/-- Row of the `servers` table.  Timestamps are abstract instants (`Nat`). -/
structure ServerRow where
  id : Nat
  name : String
  url : String
  username : String
  password : String
  status : String
  lastError : Option String
  lastErrorAt : Option Nat
  lastSuccessfulAuthAt : Option Nat
deriving DecidableEq, Repr

/-- Row of the `streams` table; `streamStatus` is the denormalized jsonb
snapshot last fetched from the vendor. -/
structure StreamRow where
  id : Nat
  serverId : Nat
  name : String
  streamKey : String
  streamStatus : Option FlussonicStream
  active : Bool
  lastSeen : Option Nat
  createdAt : Nat
deriving DecidableEq, Repr

/-- Row of the `permissions` table: a (userId, streamId) grant. -/
structure PermissionRow where
  id : Nat
  userId : Nat
  streamId : Nat
deriving DecidableEq, Repr

/-- Row of the `traffic_stats` table. -/
structure TrafficStatRow where
  id : Nat
  streamId : Nat
  year : Nat
  month : Nat
  bytesIn : Nat
  bytesOut : Nat
  lastUpdated : Nat
deriving DecidableEq, Repr

/-- The whole database.  Tables are row lists in insertion order; the
`next…Id` counters model the serial primary-key sequences. -/
structure DB where
  users : List UserRow
  servers : List ServerRow
  streams : List StreamRow
  permissions : List PermissionRow
  trafficStats : List TrafficStatRow
  nextServerId : Nat
  nextStreamId : Nat
  nextPermissionId : Nat
  nextTrafficId : Nat
deriving DecidableEq, Repr

/-- Primary-key sanity of the `streams` table: every stored id is below the
serial counter and ids are pairwise distinct.  This is what PostgreSQL's
serial primary key guarantees. -/
def DB.StreamsWF (db : DB) : Prop :=
  (∀ s ∈ db.streams, s.id < db.nextStreamId) ∧ (db.streams.map StreamRow.id).Nodup

instance (db : DB) : Decidable db.StreamsWF := by
  unfold DB.StreamsWF
  infer_instance

/-! ## GET /api/streams/permitted (src/server/routes.ts lines 59-106) -/

/-- Projection selected by the permitted-streams query: the stream columns
plus the joined server's url. -/
structure PermittedRow where
  id : Nat
  name : String
  streamKey : String
  active : Bool
  lastSeen : Option Nat
  streamStatus : Option FlussonicStream
  serverId : Nat
  createdAt : Nat
  serverUrl : String
deriving DecidableEq, Repr

/-- Builds one joined result row from a stream row and its server row. -/
def mkPermittedRow (st : StreamRow) (sv : ServerRow) : PermittedRow :=
  { id := st.id, name := st.name, streamKey := st.streamKey, active := st.active
    lastSeen := st.lastSeen, streamStatus := st.streamStatus
    serverId := st.serverId, createdAt := st.createdAt, serverUrl := sv.url }

/-- The handler of `GET /api/streams/permitted`.  Admins run
`streams INNER JOIN servers ON streams.serverId = servers.id`; everyone else
additionally joins `permissions ON permissions.streamId = streams.id` and
filters `WHERE permissions.userId = user.id`.  Joins are modelled with
nested-loop relational semantics. -/
def getPermittedStreams (db : DB) (user : UserRow) : List PermittedRow :=
  if user.isAdmin then
    db.streams.flatMap fun st =>
      (db.servers.filter fun sv => sv.id == st.serverId).map fun sv =>
        mkPermittedRow st sv
  else
    db.streams.flatMap fun st =>
      (db.permissions.filter fun p => p.streamId == st.id).flatMap fun p =>
        (db.servers.filter fun sv => sv.id == st.serverId).flatMap fun sv =>
          if p.userId == user.id then [mkPermittedRow st sv] else []

/-! ## DELETE /api/users/:id (src/server/routes.ts lines 335-365) -/

/-- The handler of `DELETE /api/users/:id`, reached through `requireAdmin`
(so `requester.isAdmin` is true for every request that gets here).  Returns
the HTTP status and the database after the request.  The guard counts rows
with `isAdmin = true` and rejects with 400 when that count is at most one,
before ever looking at the target id. -/
def deleteUserHandler (db : DB) (requester : UserRow) (targetId : Nat) :
    Nat × DB :=
  if requester.isAdmin &&
      (db.users.filter fun u => u.isAdmin).length ≤ 1 then
    (400, db)
  else
    let deleted := db.users.filter fun u => u.id == targetId
    if deleted.isEmpty then
      (404, db)
    else
      (200, { db with users := db.users.filter fun u => !(u.id == targetId) })

/-! ## POST /api/servers (src/server/routes.ts lines 373-403) -/

/-- Request body of `POST /api/servers`. -/
structure ServerReq where
  name : String
  url : String
  username : String
  password : String
deriving DecidableEq, Repr

/-- Response of `POST /api/servers`: 400 with the vendor error message, or
200 with the inserted row. -/
inductive CreateServerResult where
  | badRequest (msg : String)
  | created (row : ServerRow)
deriving DecidableEq, Repr

/-- The handler of `POST /api/servers`.  `validation` is the outcome of
`flussonicService.validateAuth` on the candidate credentials, which runs
before any insert; the candidate has no row id yet, so `validateAuth`'s
failure-path update of `servers.lastError` (keyed on the candidate's id)
matches no row.  On success exactly one row is inserted, with
`status = "online"` and `lastSuccessfulAuthAt = now`. -/
def createServerHandler (db : DB) (req : ServerReq)
    (validation : Except String Unit) (now : Nat) : CreateServerResult × DB :=
  match validation with
  | .error msg => (.badRequest msg, db)
  | .ok _ =>
      let row : ServerRow :=
        { id := db.nextServerId, name := req.name, url := req.url
          username := req.username, password := req.password
          status := "online", lastError := none, lastErrorAt := none
          lastSuccessfulAuthAt := some now }
      (.created row,
        { db with servers := db.servers ++ [row]
                  nextServerId := db.nextServerId + 1 })

/-! ## Push-destination endpoints (src/server/routes.ts lines 479-565) -/

/-- Outcome of a push-destination request: 400, 404, or the call forwarded
to `flussonicService.addPushDestination` / `removePushDestination` with the
resolved server, the stream's key, and the requested url. -/
inductive PushResult where
  | badRequest (msg : String)
  | notFound (msg : String)
  | forwarded (serverId : Nat) (streamKey : String) (url : String)
deriving DecidableEq, Repr

/-- The regex `^(rtmp|rtmps):\/\//` of the POST handler: the url starts with
`rtmp://` or `rtmps://`. -/
def isRtmpUrl (url : String) : Bool :=
  List.isPrefixOf "rtmp://".data url.data ||
    List.isPrefixOf "rtmps://".data url.data

/-- The handler of `POST /api/streams/:streamId/push`.  `url` is `none` when
the body carries no string url (`!url || typeof url !== 'string'`); an empty
string is falsy in JavaScript and hits the same 400. -/
def addPushHandler (db : DB) (streamId : Nat) (url : Option String) :
    PushResult :=
  match url with
  | none => .badRequest "URL is required and must be a string"
  | some u =>
      if u = "" then .badRequest "URL is required and must be a string"
      else if !isRtmpUrl u then
        .badRequest "URL must start with rtmp:// or rtmps://"
      else
        match db.streams.find? (fun st => st.id == streamId) with
        | none => .notFound "Stream not found"
        | some st =>
            match db.servers.find? (fun sv => sv.id == st.serverId) with
            | none => .notFound "Server not found"
            | some sv => .forwarded sv.id st.streamKey u

/-- The handler of `DELETE /api/streams/:streamId/push`.  Unlike the POST
handler it applies no scheme check to the url: only presence and string-ness
are validated before the stream and server lookups. -/
def removePushHandler (db : DB) (streamId : Nat) (url : Option String) :
    PushResult :=
  match url with
  | none => .badRequest "URL is required and must be a string"
  | some u =>
      if u = "" then .badRequest "URL is required and must be a string"
      else
        match db.streams.find? (fun st => st.id == streamId) with
        | none => .notFound "Stream not found"
        | some st =>
            match db.servers.find? (fun sv => sv.id == st.serverId) with
            | none => .notFound "Server not found"
            | some sv => .forwarded sv.id st.streamKey u

/-! ## Reconciliation loop of GET /api/servers/:serverId/streams
(src/server/routes.ts lines 193-236) -/

/-- The column values a tick writes onto a stream row:
`active = true, lastSeen = now, streamStatus = the fetched snapshot`. -/
def applyTick (a : FlussonicStream) (now : Nat) (row : StreamRow) : StreamRow :=
  { row with active := true, lastSeen := some now, streamStatus := some a }

/-- The predicate of the per-stream lookup:
`WHERE streams.serverId = serverId AND streams.streamKey = streamKey`. -/
def streamPred (sid : Nat) (key : String) (s : StreamRow) : Bool :=
  s.serverId == sid && s.streamKey == key

/-- The `UPDATE streams SET active, lastSeen, streamStatus WHERE streams.id =
existingStream.id` of the loop body, applied to one stored row. -/
def tickUpdate (a : FlussonicStream) (now : Nat) (eid : Nat) (s : StreamRow) :
    StreamRow :=
  if s.id == eid then applyTick a now s else s

/-- The freshly inserted row of the loop body's insert branch: both `name`
and `streamKey` are the vendor stream's name, `active = true`,
`lastSeen = now`, and the status snapshot is stored. -/
def newStreamRow (sid : Nat) (now : Nat) (a : FlussonicStream)
    (nextId : Nat) : StreamRow :=
  { id := nextId, serverId := sid, name := a.name, streamKey := a.name
    streamStatus := some a, active := true, lastSeen := some now
    createdAt := now }

/-- The insert branch of the loop body: insert the new stream row; if the
requesting user is an admin, also insert one permission row granting that
user the new stream. -/
def insertStream (sid : Nat) (user : UserRow) (now : Nat) (db : DB)
    (a : FlussonicStream) : DB :=
  let newRow := newStreamRow sid now a db.nextStreamId
  let db1 := { db with streams := db.streams ++ [newRow]
                       nextStreamId := db.nextStreamId + 1 }
  if user.isAdmin then
    { db1 with
      permissions := db1.permissions ++
        [{ id := db1.nextPermissionId, userId := user.id
           streamId := newRow.id }]
      nextPermissionId := db1.nextPermissionId + 1 }
  else db1

/-- One iteration of the reconciliation loop for a single vendor stream `a`:
look the row up by (serverId, streamKey) with `LIMIT 1`; if present, update
it (matched by its id); if absent, take the insert branch. -/
def reconcileOne (sid : Nat) (user : UserRow) (now : Nat) (db : DB)
    (a : FlussonicStream) : DB :=
  match db.streams.find? (streamPred sid a.name) with
  | some existing =>
      { db with streams := db.streams.map (tickUpdate a now existing.id) }
  | none => insertStream sid user now db a

/-- The whole reconciliation tick: the `for (const activeStream of
activeStreams)` loop, processing the vendor response in order. -/
def reconcile (sid : Nat) (user : UserRow) (now : Nat) (db : DB)
    (resp : List FlussonicStream) : DB :=
  resp.foldl (reconcileOne sid user now) db

/-! ## updateTrafficStats (src/server/routes.ts lines 718-762) -/

/-- The column lists on which the `traffic_stats` table declares a unique or
exclusion constraint.  From the Drizzle schema (`src/unnamed/part_005` lines
92-100): only the serial primary key `id`; no unique constraint covers
(stream_id, year, month). -/
def trafficStatsUniqueConstraints : List (List String) := [["id"]]

/-- Does a row already in the table conflict with the incoming row on the
(stream_id, year, month) conflict target? -/
def trafficConflict (a b : TrafficStatRow) : Bool :=
  a.streamId == b.streamId && a.year == b.year && a.month == b.month

/-- PostgreSQL semantics of the generated
`INSERT ... ON CONFLICT (stream_id, year, month) DO UPDATE SET bytesIn,
bytesOut, lastUpdated`: the statement is rejected outright unless the table
declares a unique or exclusion constraint on exactly the conflict-target
columns; with such a constraint it upserts. -/
def pgInsertTrafficOnConflict (declared : List (List String))
    (rows : List TrafficStatRow) (newRow : TrafficStatRow) :
    Except String (List TrafficStatRow) :=
  if declared.contains ["stream_id", "year", "month"] then
    if rows.any (fun r => trafficConflict r newRow) then
      .ok (rows.map fun r =>
        if trafficConflict r newRow then
          { r with bytesIn := newRow.bytesIn, bytesOut := newRow.bytesOut
                   lastUpdated := newRow.lastUpdated }
        else r)
    else .ok (rows ++ [newRow])
  else
    .error "there is no unique or exclusion constraint matching the ON CONFLICT specification"

/-- The `updateTrafficStats` function registered as the periodic traffic
updater.  `year`/`month` come from the current wall-clock date and `now` is
the timestamp.  A stream without a status snapshot is skipped; any error of
the insert is caught, logged and swallowed (`try/catch`), leaving the
database unchanged. -/
def updateTrafficStats (db : DB) (stream : StreamRow) (year month now : Nat) :
    DB :=
  match stream.streamStatus with
  | none => db
  | some snap =>
      let newRow : TrafficStatRow :=
        { id := db.nextTrafficId, streamId := stream.id, year := year
          month := month, bytesIn := snap.stats.bytes_in
          bytesOut := snap.stats.bytes_out, lastUpdated := now }
      match pgInsertTrafficOnConflict trafficStatsUniqueConstraints
          db.trafficStats newRow with
      | .error _ => db
      | .ok rows =>
          { db with trafficStats := rows, nextTrafficId := db.nextTrafficId + 1 }

/-- The same updater over a `traffic_stats` table that does declare the
unique constraint on (stream_id, year, month) that the code's
`onConflictDoUpdate` target presupposes.  This is the intended upsert the
spec describes; the deployed schema lacks the constraint. -/
def updateTrafficStatsIntended (db : DB) (stream : StreamRow)
    (year month now : Nat) : DB :=
  match stream.streamStatus with
  | none => db
  | some snap =>
      let newRow : TrafficStatRow :=
        { id := db.nextTrafficId, streamId := stream.id, year := year
          month := month, bytesIn := snap.stats.bytes_in
          bytesOut := snap.stats.bytes_out, lastUpdated := now }
      match pgInsertTrafficOnConflict
          (trafficStatsUniqueConstraints ++ [["stream_id", "year", "month"]])
          db.trafficStats newRow with
      | .error _ => db
      | .ok rows =>
          { db with trafficStats := rows, nextTrafficId := db.nextTrafficId + 1 }

/-! ## Predicates used by the correctness statements -/

/-- A vendor stream `a` is synchronized in `db` when the loop's lookup for
its key finds a row and that row already carries the tick's values. -/
def Synced (sid now : Nat) (db : DB) (a : FlussonicStream) : Prop :=
  ∃ row, db.streams.find? (streamPred sid a.name) = some row ∧
    applyTick a now row = row

/-- The loop's lookup for server `sid` and key `k` finds some row. -/
def PresentKey (sid : Nat) (db : DB) (k : String) : Prop :=
  (db.streams.find? (streamPred sid k)).isSome

/-- Identity of a stored stream row: primary key, owning server, stream
key.  A tick update never changes these. -/
def rowKey (s : StreamRow) : Nat × Nat × String := (s.id, s.serverId, s.streamKey)

/-- Projection of a permission row onto its grant content. -/
def permProj (p : PermissionRow) : Nat × Nat := (p.userId, p.streamId)

/-! ## Concrete fixtures for witnesses and counterexamples -/

/-- An admin user. -/
def adminUser : UserRow :=
  { id := 1, username := "admin", password := "h1", isAdmin := true }

/-- A non-admin user holding one permission in `dbC1`. -/
def viewer : UserRow :=
  { id := 2, username := "viewer", password := "h2", isAdmin := false }

/-- A non-admin user holding no permissions. -/
def nobody : UserRow :=
  { id := 3, username := "nobody", password := "h3", isAdmin := false }

/-- A registered media server row. -/
def svA : ServerRow :=
  { id := 1, name := "srv", url := "https://media.example", username := "root"
    password := "pw", status := "online", lastError := none
    lastErrorAt := none, lastSuccessfulAuthAt := none }

/-- A stored stream row with key cam1. -/
def stA : StreamRow :=
  { id := 1, serverId := 1, name := "cam1", streamKey := "cam1"
    streamStatus := none, active := true, lastSeen := none, createdAt := 0 }

/-- A stored stream row with key cam2. -/
def stB : StreamRow :=
  { id := 2, serverId := 1, name := "cam2", streamKey := "cam2"
    streamStatus := none, active := true, lastSeen := none, createdAt := 0 }

/-- Fixture database: three users, one server, two streams, one permission
granting `viewer` stream 1. -/
def dbC1 : DB :=
  { users := [adminUser, viewer, nobody], servers := [svA]
    streams := [stA, stB]
    permissions := [{ id := 1, userId := 2, streamId := 1 }]
    trafficStats := [], nextServerId := 2, nextStreamId := 3
    nextPermissionId := 2, nextTrafficId := 1 }

/-- A live vendor stream named cam1. -/
def cam1 : FlussonicStream :=
  { name := "cam1"
    stats := { alive := true, status := "running", bytes_in := 100
               bytes_out := 50, input_bitrate := 1000, online_clients := 3
               last_access_at := 10, last_dts := 10 }
    template := none, staticFlag := false, nomedia := false }

/-- Fixture database with an empty streams table. -/
def emptyDB : DB :=
  { users := [adminUser], servers := [svA], streams := [], permissions := []
    trafficStats := [], nextServerId := 2, nextStreamId := 1
    nextPermissionId := 1, nextTrafficId := 1 }

/-- A stored stream row whose key never appears in vendor responses. -/
def oldRow : StreamRow :=
  { id := 1, serverId := 1, name := "legacy", streamKey := "legacy"
    streamStatus := none, active := false, lastSeen := none, createdAt := 0 }

/-- Fixture database holding only `oldRow`. -/
def dbC8 : DB := { emptyDB with streams := [oldRow], nextStreamId := 2 }

/-- A vendor snapshot for the traffic-stats scenarios, with the given byte
counters. -/
def trafficSnapshotC5 (bin bout : Nat) : FlussonicStream :=
  { name := "cam1"
    stats := { alive := true, status := "running", bytes_in := bin
               bytes_out := bout, input_bitrate := 0, online_clients := 0
               last_access_at := 0, last_dts := 0 }
    template := none, staticFlag := false, nomedia := false }

/-- A stream row carrying `trafficSnapshotC5 bin bout` as its status. -/
def trafficStreamC5 (bin bout : Nat) : StreamRow :=
  { id := 1, serverId := 1, name := "cam1", streamKey := "cam1"
    streamStatus := some (trafficSnapshotC5 bin bout), active := true
    lastSeen := some 0, createdAt := 0 }

/-- A raw vendor stream whose stats object is entirely missing. -/
def rawBare : RawStream :=
  { name := "cam1", stats := none, template := none, staticFlag := none
    nomedia := none }

/-! ## Structural lemmas about one reconciliation iteration -/

theorem applyTick_id (a : FlussonicStream) (now : Nat) (s : StreamRow) :
    (applyTick a now s).id = s.id := rfl

theorem tickUpdate_rowId (a : FlussonicStream) (now eid : Nat)
    (s : StreamRow) : (tickUpdate a now eid s).id = s.id := by
  unfold tickUpdate
  split <;> rfl

theorem streamPred_tickUpdate (sid : Nat) (k : String) (a : FlussonicStream)
    (now eid : Nat) (s : StreamRow) :
    streamPred sid k (tickUpdate a now eid s) = streamPred sid k s := by
  unfold tickUpdate
  split <;> rfl

theorem tickUpdate_of_ne (a : FlussonicStream) (now eid : Nat)
    (s : StreamRow) (h : s.id ≠ eid) : tickUpdate a now eid s = s := by
  unfold tickUpdate
  simp [h]

theorem insertStream_streams (sid : Nat) (u : UserRow) (now : Nat) (db : DB)
    (a : FlussonicStream) :
    (insertStream sid u now db a).streams =
      db.streams ++ [newStreamRow sid now a db.nextStreamId] := by
  unfold insertStream
  split <;> rfl

theorem insertStream_nextStreamId (sid : Nat) (u : UserRow) (now : Nat)
    (db : DB) (a : FlussonicStream) :
    (insertStream sid u now db a).nextStreamId = db.nextStreamId + 1 := by
  unfold insertStream
  split <;> rfl

theorem insertStream_permissions (sid : Nat) (u : UserRow) (now : Nat)
    (db : DB) (a : FlussonicStream) :
    (insertStream sid u now db a).permissions =
      db.permissions ++
        (if u.isAdmin then
          [{ id := db.nextPermissionId, userId := u.id
             streamId := db.nextStreamId : PermissionRow }]
         else []) := by
  unfold insertStream
  split <;> simp_all [newStreamRow]

theorem reconcileOne_of_found (sid : Nat) (u : UserRow) (now : Nat) (db : DB)
    (a : FlussonicStream) (e : StreamRow)
    (hfind : db.streams.find? (streamPred sid a.name) = some e) :
    reconcileOne sid u now db a =
      { db with streams := db.streams.map (tickUpdate a now e.id) } := by
  unfold reconcileOne
  rw [hfind]

theorem reconcileOne_of_absent (sid : Nat) (u : UserRow) (now : Nat)
    (db : DB) (a : FlussonicStream)
    (hfind : db.streams.find? (streamPred sid a.name) = none) :
    reconcileOne sid u now db a = insertStream sid u now db a := by
  unfold reconcileOne
  rw [hfind]

theorem reconcile_cons (sid : Nat) (u : UserRow) (now : Nat) (db : DB)
    (b : FlussonicStream) (t : List FlussonicStream) :
    reconcile sid u now db (b :: t) =
      reconcile sid u now (reconcileOne sid u now db b) t := rfl

/-! ## Well-formedness is preserved by reconciliation -/

theorem streams_map_id_tickUpdate (a : FlussonicStream) (now eid : Nat)
    (l : List StreamRow) :
    (l.map (tickUpdate a now eid)).map StreamRow.id = l.map StreamRow.id := by
  rw [List.map_map]
  exact List.map_congr_left fun s _ => tickUpdate_rowId a now eid s

theorem reconcileOne_wf (sid : Nat) (u : UserRow) (now : Nat) (db : DB)
    (a : FlussonicStream) (h : db.StreamsWF) :
    (reconcileOne sid u now db a).StreamsWF := by
  obtain ⟨hbound, hnd⟩ := h
  cases hfind : db.streams.find? (streamPred sid a.name) with
  | some e =>
      rw [reconcileOne_of_found sid u now db a e hfind]
      refine ⟨?_, ?_⟩
      · intro s hs
        obtain ⟨s0, hs0, rfl⟩ := List.mem_map.mp hs
        rw [tickUpdate_rowId]
        exact hbound s0 hs0
      · show ((db.streams.map (tickUpdate a now e.id)).map StreamRow.id).Nodup
        rw [streams_map_id_tickUpdate]
        exact hnd
  | none =>
      rw [reconcileOne_of_absent sid u now db a hfind]
      refine ⟨?_, ?_⟩
      · intro s hs
        rw [insertStream_streams] at hs
        rw [insertStream_nextStreamId]
        rcases List.mem_append.mp hs with h1 | h2
        · exact Nat.lt_succ_of_lt (hbound s h1)
        · rw [List.mem_singleton.mp h2]
          simp [newStreamRow]
      · show ((insertStream sid u now db a).streams.map StreamRow.id).Nodup
        rw [insertStream_streams, List.map_append]
        rw [List.nodup_append]
        refine ⟨hnd, by simp [newStreamRow], ?_⟩
        intro x hx hx2
        simp [newStreamRow] at hx2
        obtain ⟨s0, hs0, rfl⟩ := List.mem_map.mp hx
        exact absurd hx2 (Nat.ne_of_lt (hbound s0 hs0))

theorem reconcile_wf (sid : Nat) (u : UserRow) (now : Nat)
    (r : List FlussonicStream) :
    ∀ db : DB, db.StreamsWF → (reconcile sid u now db r).StreamsWF := by
  induction r with
  | nil => exact fun db h => h
  | cons a t ih =>
      intro db h
      rw [reconcile_cons]
      exact ih _ (reconcileOne_wf sid u now db a h)

/-! ## Lookup stability under the tick update -/

theorem find?_streams_tickUpdate (sid : Nat) (k : String)
    (a : FlussonicStream) (now eid : Nat) (l : List StreamRow) :
    (l.map (tickUpdate a now eid)).find? (streamPred sid k) =
      (l.find? (streamPred sid k)).map (tickUpdate a now eid) := by
  have hp : streamPred sid k ∘ tickUpdate a now eid = streamPred sid k :=
    funext fun s => streamPred_tickUpdate sid k a now eid s
  rw [List.find?_map, hp]

theorem find?_key_of_some (sid : Nat) (k : String) (l : List StreamRow)
    (row : StreamRow) (h : l.find? (streamPred sid k) = some row) :
    row.serverId = sid ∧ row.streamKey = k := by
  have := List.find?_some h
  simp [streamPred] at this
  exact this

/-! ## The synchronized-row property behind idempotence -/

theorem reconcileOne_of_synced (sid : Nat) (u : UserRow) (now : Nat)
    (db : DB) (a : FlussonicStream) (hwf : db.StreamsWF)
    (hs : Synced sid now db a) : reconcileOne sid u now db a = db := by
  obtain ⟨row, hfind, hfix⟩ := hs
  rw [reconcileOne_of_found sid u now db a row hfind]
  have hrowmem : row ∈ db.streams := List.mem_of_find?_eq_some hfind
  have hmap : db.streams.map (tickUpdate a now row.id) = db.streams := by
    have hpt : ∀ s ∈ db.streams, tickUpdate a now row.id s = s := by
      intro s hsmem
      by_cases hid : s.id = row.id
      · have hsrow : s = row :=
          List.inj_on_of_nodup_map hwf.2 hsmem hrowmem hid
        rw [hsrow]
        simpa [tickUpdate] using hfix
      · exact tickUpdate_of_ne a now row.id s hid
    calc db.streams.map (tickUpdate a now row.id)
        = db.streams.map id := List.map_congr_left fun s h => (hpt s h).trans rfl
      _ = db.streams := List.map_id db.streams
  rw [hmap]

theorem reconcileOne_synced_self (sid : Nat) (u : UserRow) (now : Nat)
    (db : DB) (a : FlussonicStream) :
    Synced sid now (reconcileOne sid u now db a) a := by
  cases hfind : db.streams.find? (streamPred sid a.name) with
  | some e =>
      rw [reconcileOne_of_found sid u now db a e hfind]
      refine ⟨applyTick a now e, ?_, rfl⟩
      show (db.streams.map (tickUpdate a now e.id)).find? (streamPred sid a.name)
          = some (applyTick a now e)
      rw [find?_streams_tickUpdate, hfind]
      simp [tickUpdate]
  | none =>
      rw [reconcileOne_of_absent sid u now db a hfind]
      refine ⟨newStreamRow sid now a db.nextStreamId, ?_, rfl⟩
      show (insertStream sid u now db a).streams.find? (streamPred sid a.name)
          = some (newStreamRow sid now a db.nextStreamId)
      rw [insertStream_streams, List.find?_append, hfind]
      simp [streamPred, newStreamRow]

theorem synced_preserved (sid : Nat) (u : UserRow) (now : Nat) (db : DB)
    (a b : FlussonicStream) (hwf : db.StreamsWF) (hab : a.name ≠ b.name)
    (hs : Synced sid now db a) :
    Synced sid now (reconcileOne sid u now db b) a := by
  obtain ⟨row, hfind, hfix⟩ := hs
  cases hfindb : db.streams.find? (streamPred sid b.name) with
  | some e =>
      rw [reconcileOne_of_found sid u now db b e hfindb]
      refine ⟨row, ?_, hfix⟩
      show (db.streams.map (tickUpdate b now e.id)).find? (streamPred sid a.name)
          = some row
      rw [find?_streams_tickUpdate, hfind]
      have hrowmem : row ∈ db.streams := List.mem_of_find?_eq_some hfind
      have hemem : e ∈ db.streams := List.mem_of_find?_eq_some hfindb
      have hka := (find?_key_of_some sid a.name db.streams row hfind).2
      have hkb := (find?_key_of_some sid b.name db.streams e hfindb).2
      have hne : row.id ≠ e.id := by
        intro h
        exact hab (by
          rw [← hka, List.inj_on_of_nodup_map hwf.2 hrowmem hemem h, hkb])
      simp [tickUpdate_of_ne b now e.id row hne]
  | none =>
      rw [reconcileOne_of_absent sid u now db b hfindb]
      refine ⟨row, ?_, hfix⟩
      show (insertStream sid u now db b).streams.find? (streamPred sid a.name)
          = some row
      rw [insertStream_streams, List.find?_append, hfind]
      rfl

theorem synced_preserved_fold (sid : Nat) (u : UserRow) (now : Nat)
    (r : List FlussonicStream) (a : FlussonicStream) :
    ∀ db : DB, db.StreamsWF → (∀ b ∈ r, a.name ≠ b.name) →
      Synced sid now db a → Synced sid now (reconcile sid u now db r) a := by
  induction r with
  | nil => exact fun db _ _ hs => hs
  | cons b t ih =>
      intro db hwf hname hs
      rw [reconcile_cons]
      exact ih _ (reconcileOne_wf sid u now db b hwf)
        (fun c hc => hname c (List.mem_cons_of_mem b hc))
        (synced_preserved sid u now db a b hwf
          (hname b (List.mem_cons_self b t)) hs)

theorem reconcile_synced_all (sid : Nat) (u : UserRow) (now : Nat)
    (r : List FlussonicStream) :
    ∀ db : DB, db.StreamsWF → (r.map FlussonicStream.name).Nodup →
      ∀ a ∈ r, Synced sid now (reconcile sid u now db r) a := by
  induction r with
  | nil => intro db _ _ a ha; cases ha
  | cons b t ih =>
      intro db hwf hnd a ha
      have hwf1 := reconcileOne_wf sid u now db b hwf
      rw [List.map_cons, List.nodup_cons] at hnd
      rw [reconcile_cons]
      rcases List.mem_cons.mp ha with rfl | hat
      · refine synced_preserved_fold sid u now t a _ hwf1 ?_
          (reconcileOne_synced_self sid u now db a)
        intro c hc hceq
        exact hnd.1 (hceq ▸ List.mem_map_of_mem FlussonicStream.name hc)
      · exact ih _ hwf1 hnd.2 a hat

theorem reconcile_of_all_synced (sid : Nat) (u : UserRow) (now : Nat)
    (r : List FlussonicStream) :
    ∀ db : DB, db.StreamsWF → (∀ a ∈ r, Synced sid now db a) →
      reconcile sid u now db r = db := by
  induction r with
  | nil => exact fun db _ _ => rfl
  | cons b t ih =>
      intro db hwf hall
      rw [reconcile_cons,
        reconcileOne_of_synced sid u now db b hwf (hall b (List.mem_cons_self b t))]
      exact ih db hwf fun a ha => hall a (List.mem_cons_of_mem b ha)

/-! ## A second tick never inserts: key presence and row identity -/

theorem rowKey_tickUpdate (b : FlussonicStream) (now eid : Nat)
    (s : StreamRow) : rowKey (tickUpdate b now eid s) = rowKey s := by
  unfold tickUpdate
  split <;> rfl

theorem presentKey_preserved (sid : Nat) (u : UserRow) (now : Nat) (db : DB)
    (b : FlussonicStream) (k : String) (h : PresentKey sid db k) :
    PresentKey sid (reconcileOne sid u now db b) k := by
  cases hfindb : db.streams.find? (streamPred sid b.name) with
  | some e =>
      rw [reconcileOne_of_found sid u now db b e hfindb]
      show ((db.streams.map (tickUpdate b now e.id)).find? (streamPred sid k)).isSome
      rw [find?_streams_tickUpdate]
      simpa [PresentKey] using h
  | none =>
      rw [reconcileOne_of_absent sid u now db b hfindb]
      show ((insertStream sid u now db b).streams.find? (streamPred sid k)).isSome
      rw [insertStream_streams, List.find?_append]
      obtain ⟨row, hrow⟩ := Option.isSome_iff_exists.mp h
      rw [hrow]
      rfl

theorem presentKey_preserved_fold (sid : Nat) (u : UserRow) (now : Nat)
    (r : List FlussonicStream) (k : String) :
    ∀ db : DB, PresentKey sid db k →
      PresentKey sid (reconcile sid u now db r) k := by
  induction r with
  | nil => exact fun db h => h
  | cons b t ih =>
      intro db h
      rw [reconcile_cons]
      exact ih _ (presentKey_preserved sid u now db b k h)

theorem reconcile_presentKey_all (sid : Nat) (u : UserRow) (now : Nat)
    (r : List FlussonicStream) :
    ∀ db : DB, ∀ a ∈ r, PresentKey sid (reconcile sid u now db r) a.name := by
  induction r with
  | nil => intro db a ha; cases ha
  | cons b t ih =>
      intro db a ha
      rw [reconcile_cons]
      rcases List.mem_cons.mp ha with rfl | hat
      · refine presentKey_preserved_fold sid u now t a.name _ ?_
        obtain ⟨row, hrow, -⟩ := reconcileOne_synced_self sid u now db a
        exact Option.isSome_iff_exists.mpr ⟨row, hrow⟩
      · exact ih _ a hat

theorem reconcile_rowKey_of_present (sid : Nat) (u : UserRow) (now : Nat)
    (r : List FlussonicStream) :
    ∀ db : DB, (∀ a ∈ r, PresentKey sid db a.name) →
      (reconcile sid u now db r).streams.map rowKey =
        db.streams.map rowKey := by
  induction r with
  | nil => exact fun db _ => rfl
  | cons b t ih =>
      intro db hall
      obtain ⟨e, hfind⟩ := Option.isSome_iff_exists.mp
        (hall b (List.mem_cons_self b t))
      rw [reconcile_cons,
        ih _ (fun a ha =>
          presentKey_preserved sid u now db b a.name
            (hall a (List.mem_cons_of_mem b ha))),
        reconcileOne_of_found sid u now db b e hfind]
      show (db.streams.map (tickUpdate b now e.id)).map rowKey
          = db.streams.map rowKey
      rw [List.map_map]
      exact List.map_congr_left fun s _ => rowKey_tickUpdate b now e.id s

/-! ## Rows absent from the vendor response are untouched -/

theorem reconcile_untouched_core (sid : Nat) (u : UserRow) (now : Nat)
    (r : List FlussonicStream) :
    ∀ (db : DB), db.StreamsWF → ∀ (i : Nat) (row : StreamRow),
      db.streams[i]? = some row →
      row.streamKey ∉ r.map FlussonicStream.name →
      (reconcile sid u now db r).streams[i]? = some row := by
  induction r with
  | nil => exact fun db _ i row h _ => h
  | cons b t ih =>
      intro db hwf i row hrow habs
      rw [List.map_cons] at habs
      have habs2 : row.streamKey ∉ t.map FlussonicStream.name :=
        fun h => habs (List.mem_cons_of_mem _ h)
      have hkey : row.streamKey ≠ b.name :=
        fun h => habs (h ▸ List.mem_cons_self _ _)
      rw [reconcile_cons]
      refine ih _ (reconcileOne_wf sid u now db b hwf) i row ?_ habs2
      cases hfindb : db.streams.find? (streamPred sid b.name) with
      | some e =>
          rw [reconcileOne_of_found sid u now db b e hfindb]
          show (db.streams.map (tickUpdate b now e.id))[i]? = some row
          rw [List.getElem?_map, hrow]
          have hrowmem : row ∈ db.streams := by
            obtain ⟨hi, he⟩ := List.getElem?_eq_some_iff.mp hrow
            exact he ▸ List.getElem_mem hi
          have hemem : e ∈ db.streams := List.mem_of_find?_eq_some hfindb
          have hkb := (find?_key_of_some sid b.name db.streams e hfindb).2
          have hne : row.id ≠ e.id := by
            intro h
            exact hkey (by
              rw [List.inj_on_of_nodup_map hwf.2 hrowmem hemem h, hkb])
          simp [tickUpdate_of_ne b now e.id row hne]
      | none =>
          rw [reconcileOne_of_absent sid u now db b hfindb]
          show (insertStream sid u now db b).streams[i]? = some row
          obtain ⟨hi, -⟩ := List.getElem?_eq_some_iff.mp hrow
          rw [insertStream_streams, List.getElem?_append_left hi]
          exact hrow

/-! ## Freshly inserted rows and the admin auto-grant -/

theorem reconcile_streams_id_ext (sid : Nat) (u : UserRow) (now : Nat)
    (r : List FlussonicStream) :
    ∀ db : DB, ∃ ext : List Nat,
      (reconcile sid u now db r).streams.map StreamRow.id =
        db.streams.map StreamRow.id ++ ext ∧
      (∀ x ∈ ext, db.nextStreamId ≤ x) := by
  induction r with
  | nil => exact fun db => ⟨[], by simp [reconcile], by simp⟩
  | cons b t ih =>
      intro db
      rw [reconcile_cons]
      cases hfindb : db.streams.find? (streamPred sid b.name) with
      | some e =>
          obtain ⟨ext, h1, h2⟩ := ih (reconcileOne sid u now db b)
          refine ⟨ext, ?_, ?_⟩
          · rw [h1, reconcileOne_of_found sid u now db b e hfindb]
            show (db.streams.map (tickUpdate b now e.id)).map StreamRow.id ++ ext
                = db.streams.map StreamRow.id ++ ext
            rw [streams_map_id_tickUpdate]
          · intro x hx
            have h3 := h2 x hx
            rw [reconcileOne_of_found sid u now db b e hfindb] at h3
            exact h3
      | none =>
          obtain ⟨ext, h1, h2⟩ := ih (reconcileOne sid u now db b)
          refine ⟨db.nextStreamId :: ext, ?_, ?_⟩
          · rw [h1, reconcileOne_of_absent sid u now db b hfindb,
              insertStream_streams, List.map_append]
            simp [newStreamRow]
          · intro x hx
            rcases List.mem_cons.mp hx with rfl | hx2
            · exact Nat.le_refl _
            · have h3 := h2 x hx2
              rw [reconcileOne_of_absent sid u now db b hfindb,
                insertStream_nextStreamId] at h3
              omega

theorem reconcile_admin_grant_core (sid : Nat) (u : UserRow) (now : Nat)
    (r : List FlussonicStream) :
    ∀ db : DB, db.StreamsWF →
      ((reconcile sid u now db r).permissions.map permProj =
        db.permissions.map permProj ++
          (if u.isAdmin then
            ((reconcile sid u now db r).streams.drop db.streams.length).map
              (fun st => (u.id, st.id))
           else [])) ∧
      (∀ st ∈ (reconcile sid u now db r).streams.drop db.streams.length,
        st.id ∉ db.streams.map StreamRow.id) := by
  induction r with
  | nil =>
      intro db _
      refine ⟨?_, ?_⟩
      · simp [reconcile, List.drop_length]
      · simp [reconcile, List.drop_length]
  | cons b t ih =>
      intro db hwf
      rw [reconcile_cons]
      have hwf1 := reconcileOne_wf sid u now db b hwf
      obtain ⟨ih1, ih2⟩ := ih (reconcileOne sid u now db b) hwf1
      cases hfindb : db.streams.find? (streamPred sid b.name) with
      | some e =>
          have hrw := reconcileOne_of_found sid u now db b e hfindb
          have hlen : (reconcileOne sid u now db b).streams.length
              = db.streams.length := by
            rw [hrw]
            show (db.streams.map (tickUpdate b now e.id)).length = _
            rw [List.length_map]
          have hperm : (reconcileOne sid u now db b).permissions
              = db.permissions := by rw [hrw]
          have hids : (reconcileOne sid u now db b).streams.map StreamRow.id
              = db.streams.map StreamRow.id := by
            rw [hrw]
            exact streams_map_id_tickUpdate b now e.id db.streams
          refine ⟨?_, ?_⟩
          · rw [ih1, hperm, hlen]
          · intro st hst
            have h2 := ih2 st (by rwa [hlen])
            rwa [hids] at h2
      | none =>
          have hrw := reconcileOne_of_absent sid u now db b hfindb
          have hstr : (reconcileOne sid u now db b).streams
              = db.streams ++ [newStreamRow sid now b db.nextStreamId] := by
            rw [hrw, insertStream_streams]
          have hperm : (reconcileOne sid u now db b).permissions
              = db.permissions ++
                (if u.isAdmin then
                  [{ id := db.nextPermissionId, userId := u.id
                     streamId := db.nextStreamId : PermissionRow }]
                 else []) := by
            rw [hrw, insertStream_permissions]
          have hlen : (reconcileOne sid u now db b).streams.length
              = db.streams.length + 1 := by
            rw [hstr, List.length_append]
            rfl
          have hmap1 : (reconcileOne sid u now db b).streams.map StreamRow.id
              = db.streams.map StreamRow.id ++ [db.nextStreamId] := by
            rw [hstr, List.map_append]
            simp [newStreamRow]
          obtain ⟨ext, hext, -⟩ :=
            reconcile_streams_id_ext sid u now t (reconcileOne sid u now db b)
          have hmapids :
              (reconcile sid u now (reconcileOne sid u now db b) t).streams.map
                StreamRow.id
              = db.streams.map StreamRow.id ++ (db.nextStreamId :: ext) := by
            rw [hext, hmap1, List.append_assoc]
            rfl
          have hlenF : db.streams.length <
              (reconcile sid u now (reconcileOne sid u now db b) t).streams.length := by
            have hl := congrArg List.length hmapids
            rw [List.length_map, List.length_append, List.length_map,
              List.length_cons] at hl
            omega
          have hgetF := List.getElem?_eq_getElem hlenF
          have hdrop :
              (reconcile sid u now (reconcileOne sid u now db b) t).streams.drop
                db.streams.length
              = (reconcile sid u now (reconcileOne sid u now db b) t).streams[db.streams.length]
                :: (reconcile sid u now (reconcileOne sid u now db b) t).streams.drop
                  (db.streams.length + 1) :=
            List.drop_eq_getElem_cons hlenF
          have hxid :
              ((reconcile sid u now (reconcileOne sid u now db b) t).streams[db.streams.length]).id
              = db.nextStreamId := by
            have h1 :
                ((reconcile sid u now (reconcileOne sid u now db b) t).streams.map
                  StreamRow.id)[db.streams.length]?
                = some ((reconcile sid u now (reconcileOne sid u now db b) t).streams[db.streams.length]).id := by
              rw [List.getElem?_map, hgetF]
              rfl
            rw [hmapids,
              List.getElem?_append_right (by rw [List.length_map])] at h1
            simp [List.length_map] at h1
            exact h1.symm
          refine ⟨?_, ?_⟩
          · rw [ih1, hperm, hlen, hdrop, List.map_append]
            by_cases hadm : u.isAdmin
            · simp [hadm, permProj, hxid]
              conv_rhs => rw [List.drop_eq_getElem_cons
                (by rw [List.length_map]; exact hlenF)]
              simp only [List.getElem_map]
              rw [hxid]
            · simp [hadm]
          · intro st hst
            rw [hdrop] at hst
            rcases List.mem_cons.mp hst with rfl | hst2
            · rw [hxid]
              intro hmem
              obtain ⟨s0, hs0, hs0id⟩ := List.mem_map.mp hmem
              exact absurd hs0id (Nat.ne_of_lt (hwf.1 s0 hs0))
            · have h2 := ih2 st (by rwa [hlen])
              rw [hmap1] at h2
              exact fun hmem => h2 (List.mem_append_left _ hmem)

/-- When the requester is not an admin, no branch of the loop ever writes to
the permissions table. -/
theorem reconcile_permissions_nonadmin (sid : Nat) (u : UserRow) (now : Nat)
    (r : List FlussonicStream) (hadm : u.isAdmin = false) :
    ∀ db : DB, (reconcile sid u now db r).permissions = db.permissions := by
  induction r with
  | nil => exact fun db => rfl
  | cons b t ih =>
      intro db
      rw [reconcile_cons, ih]
      cases hfindb : db.streams.find? (streamPred sid b.name) with
      | some e => rw [reconcileOne_of_found sid u now db b e hfindb]
      | none =>
          rw [reconcileOne_of_absent sid u now db b hfindb,
            insertStream_permissions]
          simp [hadm]

/-! ## The permitted-streams join -/

theorem filter_key_singleton {α : Type} (f : α → Nat) :
    ∀ l : List α, (l.map f).Nodup → ∀ a ∈ l,
      l.filter (fun x => f x == f a) = [a] := by
  intro l
  induction l with
  | nil => intro _ a ha; cases ha
  | cons b t ih =>
      intro hnd a ha
      rw [List.map_cons, List.nodup_cons] at hnd
      rcases List.mem_cons.mp ha with rfl | hat
      · rw [List.filter_cons_of_pos (by simp)]
        have hnil : t.filter (fun x => f x == f a) = [] := by
          apply List.filter_eq_nil_iff.mpr
          intro x hx
          simp only [beq_iff_eq]
          intro hfx
          exact hnd.1 (hfx ▸ List.mem_map_of_mem f hx)
        rw [hnil]
      · have hne : (f b == f a) = false := by
          simp only [beq_eq_false_iff_ne, ne_eq]
          intro h
          exact hnd.1 (h ▸ List.mem_map_of_mem f hat)
        rw [List.filter_cons_of_neg (by simp [hne])]
        exact ih hnd.2 a hat

theorem admin_query_ids (sts : List StreamRow) (svs : List ServerRow)
    (hnd : (svs.map ServerRow.id).Nodup)
    (hFK : ∀ st ∈ sts, ∃ sv ∈ svs, sv.id = st.serverId) :
    (sts.flatMap fun st =>
      (svs.filter fun sv => sv.id == st.serverId).map fun sv =>
        mkPermittedRow st sv).map PermittedRow.id
      = sts.map StreamRow.id := by
  induction sts with
  | nil => rfl
  | cons st t ih =>
      obtain ⟨sv, hsv, hid⟩ := hFK st (List.mem_cons_self st t)
      rw [List.flatMap_cons, List.map_append,
        ih (fun x hx => hFK x (List.mem_cons_of_mem st hx)), List.map_cons]
      have hA : ((svs.filter fun x => x.id == st.serverId).map fun sv =>
          mkPermittedRow st sv).map PermittedRow.id = [st.id] := by
        rw [← hid, filter_key_singleton ServerRow.id svs hnd sv hsv]
        rfl
      rw [hA]
      rfl

/-! ## Claim theorems -/

/-- C1: for a non-admin user with no Permission rows,
`GET /api/streams/permitted` returns the empty list even when Stream rows
exist; for a non-admin user the result contains exactly the streams for
which a Permission row (userId, streamId) exists; for an admin user the
result is the full stream set unfiltered.  `hFK` is the schema's foreign-key
invariant (`streams.serverId REFERENCES servers.id`) and `hsrv` the
uniqueness of server primary keys, both enforced by the persistence layer. -/
theorem permitted_streams_access_control (db : DB) (u : UserRow)
    (hFK : ∀ st ∈ db.streams, ∃ sv ∈ db.servers, sv.id = st.serverId)
    (hsrv : (db.servers.map ServerRow.id).Nodup) :
    (u.isAdmin = false → (∀ p ∈ db.permissions, p.userId ≠ u.id) →
      getPermittedStreams db u = []) ∧
    (u.isAdmin = false → ∀ st ∈ db.streams,
      ((∃ row ∈ getPermittedStreams db u, row.id = st.id) ↔
        ∃ p ∈ db.permissions, p.userId = u.id ∧ p.streamId = st.id)) ∧
    (u.isAdmin = true →
      (getPermittedStreams db u).map PermittedRow.id =
        db.streams.map StreamRow.id) := by
  refine ⟨?_, ?_, ?_⟩
  · intro hadm hnope
    unfold getPermittedStreams
    rw [if_neg (by simp [hadm])]
    apply List.eq_nil_iff_forall_not_mem.mpr
    intro x hx
    simp only [List.mem_flatMap, List.mem_filter] at hx
    obtain ⟨st, hst, p, ⟨hpmem, hpstream⟩, sv, ⟨hsvmem, hsvid⟩, hif⟩ := hx
    by_cases hc : (p.userId == u.id) = true
    · exact hnope p hpmem (by simpa using hc)
    · rw [if_neg hc] at hif
      cases hif
  · intro hadm st hst
    unfold getPermittedStreams
    rw [if_neg (by simp [hadm])]
    constructor
    · rintro ⟨row, hrow, hrowid⟩
      simp only [List.mem_flatMap, List.mem_filter] at hrow
      obtain ⟨st2, hst2, p, ⟨hpmem, hpstream⟩, sv, ⟨hsvmem, hsvid⟩, hif⟩ := hrow
      by_cases hc : (p.userId == u.id) = true
      · rw [if_pos hc] at hif
        have hxeq : row = mkPermittedRow st2 sv := List.mem_singleton.mp hif
        refine ⟨p, hpmem, by simpa using hc, ?_⟩
        have h1 : row.id = st2.id := by rw [hxeq]; rfl
        have h2 : p.streamId = st2.id := by simpa using hpstream
        rw [h2, ← h1, hrowid]
      · rw [if_neg hc] at hif
        cases hif
    · rintro ⟨p, hpmem, hpuid, hpsid⟩
      obtain ⟨sv, hsvmem, hsvid⟩ := hFK st hst
      refine ⟨mkPermittedRow st sv, ?_, rfl⟩
      simp only [List.mem_flatMap, List.mem_filter]
      refine ⟨st, hst, p, ⟨hpmem, by simp [hpsid]⟩, sv, ⟨hsvmem, by simp [hsvid]⟩, ?_⟩
      rw [if_pos (by simp [hpuid])]
      exact List.mem_singleton.mpr rfl
  · intro hadm
    unfold getPermittedStreams
    rw [if_pos (by simp [hadm])]
    exact admin_query_ids db.streams db.servers hsrv hFK

/-- Witness for C1: in `dbC1`, the permissionless non-admin `nobody` gets an
empty list, `viewer` sees exactly its granted stream, and the admin sees
every stream. -/
theorem permitted_streams_access_control_witness :
    getPermittedStreams dbC1 nobody = [] ∧
    (∃ row ∈ getPermittedStreams dbC1 viewer, row.id = stA.id) ∧
    (getPermittedStreams dbC1 adminUser).map PermittedRow.id =
      dbC1.streams.map StreamRow.id :=
  ⟨(permitted_streams_access_control dbC1 nobody (by decide) (by decide)).1
      (by decide) (by decide),
   ((permitted_streams_access_control dbC1 viewer (by decide) (by decide)).2.1
      (by decide) stA (by decide)).mpr
     ⟨{ id := 1, userId := 2, streamId := 1 }, by decide, by decide, by decide⟩,
   (permitted_streams_access_control dbC1 adminUser (by decide)
      (by decide)).2.2 (by decide)⟩

/-- C2: when exactly one user has the admin flag set, `DELETE /api/users/:id`
targeting that sole admin returns 400 and leaves the users table unchanged.
`hreq` holds because the route sits behind `requireAdmin`. -/
theorem delete_sole_admin_rejected (db : DB) (requester : UserRow)
    (targetId : Nat) (hreq : requester.isAdmin = true)
    (hsole : (db.users.filter fun x => x.isAdmin).length = 1)
    (_htarget : ∃ t ∈ db.users, t.isAdmin = true ∧ t.id = targetId) :
    deleteUserHandler db requester targetId = (400, db) := by
  simp [deleteUserHandler, hreq, hsole]

/-- Witness for C2: deleting the sole admin (user 1) of `dbC1`. -/
theorem delete_sole_admin_rejected_witness :
    deleteUserHandler dbC1 adminUser 1 = (400, dbC1) :=
  delete_sole_admin_rejected dbC1 adminUser 1 (by decide) (by decide)
    ⟨adminUser, by decide, by decide, by decide⟩

/-- C9: whenever at most one user has the admin flag, the delete-user guard
rejects with 400 and deletes nothing for every target id — non-admin and
non-existent targets included — because it only counts admins and never
inspects the target. -/
theorem delete_user_guard_ignores_target (db : DB) (requester : UserRow)
    (hreq : requester.isAdmin = true)
    (hatmost : (db.users.filter fun x => x.isAdmin).length ≤ 1) :
    ∀ targetId : Nat, deleteUserHandler db requester targetId = (400, db) := by
  intro targetId
  simp [deleteUserHandler, hreq, hatmost]

/-- Witness for C9: target 2 is a non-admin user of `dbC1` and target 99
does not exist; both are rejected with 400 and no change. -/
theorem delete_user_guard_ignores_target_witness :
    deleteUserHandler dbC1 adminUser 2 = (400, dbC1) ∧
    deleteUserHandler dbC1 adminUser 99 = (400, dbC1) :=
  ⟨delete_user_guard_ignores_target dbC1 adminUser (by decide) (by decide) 2,
   delete_user_guard_ignores_target dbC1 adminUser (by decide) (by decide) 99⟩

/-- C4: `POST /api/servers` validates against the live vendor endpoint
before writing: on failure the response is 400 carrying the vendor error
message and no Server row is created; on success exactly one row is
inserted, with status online and the auth timestamp set. -/
theorem create_server_validates_before_insert (db : DB) (req : ServerReq)
    (now : Nat) :
    (∀ msg : String,
      createServerHandler db req (Except.error msg) now =
        (CreateServerResult.badRequest msg, db)) ∧
    (∀ u : Unit, ∃ row : ServerRow,
      createServerHandler db req (Except.ok u) now =
        (CreateServerResult.created row,
          { db with servers := db.servers ++ [row]
                    nextServerId := db.nextServerId + 1 }) ∧
      row.status = "online" ∧ row.lastSuccessfulAuthAt = some now ∧
      row.name = req.name ∧ row.url = req.url) :=
  ⟨fun _ => rfl, fun _ => ⟨_, rfl, rfl, rfl, rfl, rfl⟩⟩

/-- C5 (code bug): the deployed schema (`src/unnamed/part_005`) declares no
unique constraint on (stream_id, year, month), so PostgreSQL rejects the
generated `INSERT ... ON CONFLICT (stream_id, year, month) DO UPDATE`; the
error is swallowed by the handler's try/catch and the traffic_stats table is
never written — not left with exactly one row holding the second tick's
counters.  Conjunct one evaluates the code as deployed (the table is
unchanged by every call), conjunct two shows two same-month ticks leaving
the table empty at a concrete input, and conjunct three shows the intended
upsert — over a table that does declare the presupposed constraint — does
produce exactly one row with the second tick's counters. -/
theorem traffic_upsert_conflict_bug (db : DB) (stream : StreamRow)
    (year month now : Nat) :
    updateTrafficStats db stream year month now = db ∧
    (updateTrafficStats
        (updateTrafficStats emptyDB (trafficStreamC5 100 50) 2026 10 1)
        (trafficStreamC5 200 80) 2026 10 2).trafficStats = [] ∧
    (updateTrafficStatsIntended
        (updateTrafficStatsIntended emptyDB (trafficStreamC5 100 50) 2026 10 1)
        (trafficStreamC5 200 80) 2026 10 2).trafficStats =
      [{ id := 1, streamId := 1, year := 2026, month := 10, bytesIn := 200
         bytesOut := 80, lastUpdated := 2 }] := by
  refine ⟨?_, by decide, by decide⟩
  unfold updateTrafficStats
  cases stream.streamStatus with
  | none => rfl
  | some snap => rfl

/-- C6 counterexample: `DELETE /api/streams/:streamId/push` with the
non-rtmp url `http://example.com` is not rejected with 400; the handler
forwards it to the vendor client, refuting the claim that both push
endpoints enforce the rtmp scheme. -/
theorem removePush_accepts_http_url :
    removePushHandler dbC1 1 (some "http://example.com") =
      PushResult.forwarded 1 "cam1" "http://example.com" := by
  decide

/-- C6 (amended): the POST push endpoint rejects a url that does not match
the rtmp pattern with 400 and forwards a matching url once the stream and
its server resolve; the DELETE push endpoint checks only that a non-empty
string url is present and forwards it without any scheme check. -/
theorem push_url_scheme_validation (db : DB) (streamId : Nat) (u : String)
    (st : StreamRow) (sv : ServerRow) :
    (addPushHandler db streamId none =
      PushResult.badRequest "URL is required and must be a string") ∧
    (u ≠ "" → isRtmpUrl u = false →
      addPushHandler db streamId (some u) =
        PushResult.badRequest "URL must start with rtmp:// or rtmps://") ∧
    (u ≠ "" → isRtmpUrl u = true →
      db.streams.find? (fun s => s.id == streamId) = some st →
      db.servers.find? (fun s => s.id == st.serverId) = some sv →
      addPushHandler db streamId (some u) =
        PushResult.forwarded sv.id st.streamKey u) ∧
    (removePushHandler db streamId none =
      PushResult.badRequest "URL is required and must be a string") ∧
    (u ≠ "" →
      db.streams.find? (fun s => s.id == streamId) = some st →
      db.servers.find? (fun s => s.id == st.serverId) = some sv →
      removePushHandler db streamId (some u) =
        PushResult.forwarded sv.id st.streamKey u) := by
  refine ⟨rfl, ?_, ?_, rfl, ?_⟩
  · intro hne hrt
    simp [addPushHandler, hne, hrt]
  · intro hne hrt hfs hfv
    simp [addPushHandler, hne, hrt, hfs, hfv]
  · intro hne hfs hfv
    simp [removePushHandler, hne, hfs, hfv]

/-- Witness for the amended C6: in `dbC1`, POST rejects an http url and
forwards an rtmp url; DELETE forwards even the http url. -/
theorem push_url_scheme_validation_witness :
    addPushHandler dbC1 1 (some "http://example.com") =
      PushResult.badRequest "URL must start with rtmp:// or rtmps://" ∧
    addPushHandler dbC1 1 (some "rtmp://example.com/live") =
      PushResult.forwarded 1 "cam1" "rtmp://example.com/live" ∧
    removePushHandler dbC1 1 (some "http://example.com") =
      PushResult.forwarded 1 "cam1" "http://example.com" :=
  ⟨(push_url_scheme_validation dbC1 1 "http://example.com" stA svA).2.1
      (by decide) (by decide),
   (push_url_scheme_validation dbC1 1 "rtmp://example.com/live" stA svA).2.2.1
      (by decide) (by decide) (by decide) (by decide),
   (push_url_scheme_validation dbC1 1 "http://example.com" stA svA).2.2.2.2
      (by decide) (by decide) (by decide)⟩

/-- C7: `getStreams` never throws because of a missing field — a transport
or HTTP error is the only error outcome, passed through unchanged — and
every absent optional stats field is defaulted: alive to false, status to
"unknown", and the numeric counters to 0. -/
theorem getStreams_defensive_defaults (nowDts : Nat) (body : VendorBody)
    (r : RawStream) :
    (∃ out, getStreamsModel nowDts (Except.ok body) = Except.ok out) ∧
    (∀ e, getStreamsModel nowDts (Except.error e) = Except.error e) ∧
    (getStreamsModel nowDts (Except.ok (VendorBody.streamList [r])) =
      Except.ok [normalizeStream nowDts r]) ∧
    (r.stats.bind RawStats.alive = none →
      (normalizeStream nowDts r).stats.alive = false) ∧
    (r.stats.bind RawStats.status = none →
      (normalizeStream nowDts r).stats.status = "unknown") ∧
    (r.stats.bind RawStats.bytes_in = none →
      (normalizeStream nowDts r).stats.bytes_in = 0) ∧
    (r.stats.bind RawStats.bytes_out = none →
      (normalizeStream nowDts r).stats.bytes_out = 0) ∧
    (r.stats.bind RawStats.input_bitrate = none →
      (normalizeStream nowDts r).stats.input_bitrate = 0) ∧
    (r.stats.bind RawStats.online_clients = none →
      (normalizeStream nowDts r).stats.online_clients = 0) ∧
    (r.stats.bind RawStats.last_access_at = none →
      (normalizeStream nowDts r).stats.last_access_at = 0) := by
  refine ⟨?_, fun e => rfl, rfl, ?_, ?_, ?_, ?_, ?_, ?_, ?_⟩
  · cases body <;> exact ⟨_, rfl⟩
  all_goals
    intro h
    simp [normalizeStream, jsOrBool, jsOrNat, jsOrString, h]

/-- Witness for C7: a raw stream with no stats object at all normalizes to
the documented defaults. -/
theorem getStreams_defensive_defaults_witness :
    (normalizeStream 99 rawBare).stats.alive = false ∧
    (normalizeStream 99 rawBare).stats.status = "unknown" ∧
    (normalizeStream 99 rawBare).stats.bytes_in = 0 :=
  ⟨(getStreams_defensive_defaults 99 VendorBody.empty rawBare).2.2.2.1
      (by decide),
   (getStreams_defensive_defaults 99 VendorBody.empty rawBare).2.2.2.2.1
      (by decide),
   (getStreams_defensive_defaults 99 VendorBody.empty rawBare).2.2.2.2.2.1
      (by decide)⟩

/-- C3: reconciliation is idempotent.  With a fixed vendor response set (a
vendor response keys streams by name, so the names are distinct) replaying
the tick over its own result is a no-op at the same instant, and a second
tick at any later instant performs no inserts: the row identities
(id, serverId, streamKey) after the second tick are exactly those after the
first.  `hwf` is the primary-key invariant of the streams table. -/
theorem reconcile_idempotent (sid : Nat) (u : UserRow) (now t1 t2 : Nat)
    (db : DB) (r : List FlussonicStream) (hwf : db.StreamsWF)
    (hnames : (r.map FlussonicStream.name).Nodup) :
    reconcile sid u now (reconcile sid u now db r) r =
      reconcile sid u now db r ∧
    (reconcile sid u t2 (reconcile sid u t1 db r) r).streams.map rowKey =
      (reconcile sid u t1 db r).streams.map rowKey :=
  ⟨reconcile_of_all_synced sid u now r _ (reconcile_wf sid u now r db hwf)
      (reconcile_synced_all sid u now r db hwf hnames),
   reconcile_rowKey_of_present sid u t2 r _
      (fun a ha => reconcile_presentKey_all sid u t1 r db a ha)⟩

/-- Witness for C3: two consecutive ticks with response `[cam1]` against an
empty stream table; the second is a no-op, and even at a later instant the
table holds exactly one row with streamKey cam1. -/
theorem reconcile_idempotent_witness :
    (reconcile 1 adminUser 5 (reconcile 1 adminUser 5 emptyDB [cam1]) [cam1] =
      reconcile 1 adminUser 5 emptyDB [cam1]) ∧
    ((reconcile 1 adminUser 7 (reconcile 1 adminUser 5 emptyDB [cam1])
        [cam1]).streams.filter (fun s => s.streamKey == "cam1")).length = 1 :=
  ⟨(reconcile_idempotent 1 adminUser 5 5 7 emptyDB [cam1] (by decide)
      (by decide)).1,
   by decide⟩

/-- C8: a stream row stored for the server whose streamKey does not occur in
the vendor response is left untouched by the tick — the identical row, all
fields included, still sits at its position afterwards. -/
theorem reconcile_leaves_absent_rows_untouched (sid : Nat) (u : UserRow)
    (now : Nat) (r : List FlussonicStream) (db : DB) (hwf : db.StreamsWF)
    (i : Nat) (row : StreamRow) (hrow : db.streams[i]? = some row)
    (_hsrv : row.serverId = sid)
    (habsent : row.streamKey ∉ r.map FlussonicStream.name) :
    (reconcile sid u now db r).streams[i]? = some row :=
  reconcile_untouched_core sid u now r db hwf i row hrow habsent

/-- Witness for C8: the stored `legacy` row of `dbC8` is untouched by a tick
whose vendor response only names cam1. -/
theorem reconcile_leaves_absent_rows_untouched_witness :
    (reconcile 1 adminUser 5 dbC8 [cam1]).streams[0]? = some oldRow :=
  reconcile_leaves_absent_rows_untouched 1 adminUser 5 [cam1] dbC8
    (by decide) 0 oldRow (by decide) (by decide) (by decide)

/-- C10: on a tick requested by an admin, every newly inserted stream row is
accompanied by exactly one new permission row (requester id, new stream id),
in order; the new rows are not pre-existing streams, so no permission is
created for streams that already existed; and a non-admin requester adds no
permission rows at all. -/
theorem reconcile_admin_auto_grant (sid : Nat) (u : UserRow) (now : Nat)
    (r : List FlussonicStream) (db : DB) (hwf : db.StreamsWF) :
    ((reconcile sid u now db r).permissions.map permProj =
      db.permissions.map permProj ++
        (if u.isAdmin then
          ((reconcile sid u now db r).streams.drop db.streams.length).map
            (fun st => (u.id, st.id))
         else [])) ∧
    (∀ st ∈ (reconcile sid u now db r).streams.drop db.streams.length,
      st.id ∉ db.streams.map StreamRow.id) ∧
    (u.isAdmin = false →
      (reconcile sid u now db r).permissions = db.permissions) := by
  obtain ⟨h1, h2⟩ := reconcile_admin_grant_core sid u now r db hwf
  exact ⟨h1, h2,
    fun hadm => reconcile_permissions_nonadmin sid u now r hadm db⟩

/-- Witness for C10: an admin-triggered tick over `dbC8` inserting cam1. -/
theorem reconcile_admin_auto_grant_witness :
    ((reconcile 1 adminUser 5 dbC8 [cam1]).permissions.map permProj =
      dbC8.permissions.map permProj ++
        (if adminUser.isAdmin then
          ((reconcile 1 adminUser 5 dbC8 [cam1]).streams.drop
            dbC8.streams.length).map (fun st => (adminUser.id, st.id))
         else [])) ∧
    (∀ st ∈ (reconcile 1 adminUser 5 dbC8 [cam1]).streams.drop
        dbC8.streams.length,
      st.id ∉ dbC8.streams.map StreamRow.id) ∧
    (adminUser.isAdmin = false →
      (reconcile 1 adminUser 5 dbC8 [cam1]).permissions =
        dbC8.permissions) :=
  reconcile_admin_auto_grant 1 adminUser 5 [cam1] dbC8 (by decide)

end OTT
